import Mathlib

/-!
Verification of the chronic-care risk dashboard against its specification.

The development shallowly embeds the relevant parts of the repository:

* `src/model/batch_predictions.py` — risk categorization (`categorize_risk`),
  condition extraction (`_extract_conditions_from_patient`), SHAP-based
  risk-factor explanations (`create_patient_records`), eligibility filtering
  (`prepare_features_for_prediction`), and cohort summary statistics
  (`save_dashboard_data`).
* `src/model/simple_batch.py` — the simplified dashboard-data generator
  (`create_dashboard_data`).
* `src/model/complete_ml_pipeline.py` — the training pipeline's temporal
  eligibility filter (`extract_temporal_features`).
* `src/backend/main.py` — the FastAPI query service (`get_patients`,
  `get_patient_details`).

Machine reals (Python floats) are modelled as exact rationals `ℚ`, machine
ints as `ℤ`/`ℕ`, missing values (`NaN`) as `Option`, and Python's in-place
`list.sort` on an aliased list as explicit state passing.  Python's stable
`sort(key=..., reverse=True)` is modelled by `List.mergeSort` with the
reversed comparison, which is also stable.  String helpers are implemented
over the character list `String.data` so that they evaluate by kernel
reduction; `Char.toLower`/`Char.toUpper` are ASCII-only, which agrees with
Python on every string occurring in this code base.
-/

/-! ### String helpers (Python `str.lower`, `str.strip`, `in`, `str.title`) -/

/-- Python `s.lower()` (ASCII). -/
def lowerString (s : String) : String := ⟨s.data.map Char.toLower⟩

/-- Python `s.strip()`: remove leading and trailing whitespace. -/
def trimString (s : String) : String :=
  ⟨((s.data.dropWhile Char.isWhitespace).reverse.dropWhile Char.isWhitespace).reverse⟩

/-- Whether `needle` occurs as a contiguous subsequence of `hay`. -/
def hasInfix (hay needle : List Char) : Bool :=
  match hay with
  | [] => needle.isEmpty
  | _ :: rest => needle.isPrefixOf hay || hasInfix rest needle

/-- Python `needle in hay` on strings. -/
def strContains (hay needle : String) : Bool := hasInfix hay.data needle.data

/-- Helper for Python `str.title`: uppercase a letter that starts a word,
lowercase other letters; a word boundary is any non-letter character. -/
def titleAux : List Char → Bool → List Char
  | [], _ => []
  | c :: cs, atStart =>
    (if c.isAlpha then (if atStart then c.toUpper else c.toLower) else c) :: titleAux cs (!c.isAlpha)

/-- Python `s.title()` (ASCII). -/
def titleString (s : String) : String := ⟨titleAux s.data true⟩

/-! ### Risk categorizer

`BatchPredictor.categorize_risk` (src/model/batch_predictions.py lines
222-231) and the inline categorization in `create_dashboard_data`
(src/model/simple_batch.py lines 64-72).  Thresholds `0.10`, `0.25`, `0.50`
are written as exact rationals. -/

/-- The (level, color, priority) triple attached to a probability. -/
structure RiskCategory where
  level : String
  color : String
  priority : ℕ
deriving DecidableEq

/-- Embeds `BatchPredictor.categorize_risk`. -/
def categorize_risk (probability : ℚ) : RiskCategory :=
  if probability < 10/100 then ⟨"Low Risk", "green", 1⟩
  else if probability < 25/100 then ⟨"Medium Risk", "yellow", 2⟩
  else if probability < 50/100 then ⟨"High Risk", "orange", 3⟩
  else ⟨"Critical Risk", "red", 4⟩

/-- The inline risk categorization of `create_dashboard_data`
(src/model/simple_batch.py lines 64-72), identical branch for branch. -/
def simple_batch_categorize_risk (base_risk : ℚ) : RiskCategory :=
  if base_risk < 10/100 then ⟨"Low Risk", "green", 1⟩
  else if base_risk < 25/100 then ⟨"Medium Risk", "yellow", 2⟩
  else if base_risk < 50/100 then ⟨"High Risk", "orange", 3⟩
  else ⟨"Critical Risk", "red", 4⟩

/-- C1: for every probability `p` the categorizer is a total deterministic
function whose four output triples characterize exactly the half-open bands
`[0, 0.10)`, `[0.10, 0.25)`, `[0.25, 0.50)` and the closed-at-one band
`[0.50, 1]` (the code in fact returns Critical for every `p ≥ 0.50`, which
contains `[0.50, 1]`); the simplified batch script categorizes identically,
and the seven boundary probes evaluate as the specification states. -/
theorem spec_C1 (p : ℚ) :
    (categorize_risk p = ⟨"Low Risk", "green", 1⟩ ↔ p < 10/100) ∧
    (categorize_risk p = ⟨"Medium Risk", "yellow", 2⟩ ↔ 10/100 ≤ p ∧ p < 25/100) ∧
    (categorize_risk p = ⟨"High Risk", "orange", 3⟩ ↔ 25/100 ≤ p ∧ p < 50/100) ∧
    (categorize_risk p = ⟨"Critical Risk", "red", 4⟩ ↔ 50/100 ≤ p) ∧
    simple_batch_categorize_risk p = categorize_risk p ∧
    categorize_risk (999/10000) = ⟨"Low Risk", "green", 1⟩ ∧
    categorize_risk (10/100) = ⟨"Medium Risk", "yellow", 2⟩ ∧
    categorize_risk (2499/10000) = ⟨"Medium Risk", "yellow", 2⟩ ∧
    categorize_risk (25/100) = ⟨"High Risk", "orange", 3⟩ ∧
    categorize_risk (4999/10000) = ⟨"High Risk", "orange", 3⟩ ∧
    categorize_risk (50/100) = ⟨"Critical Risk", "red", 4⟩ ∧
    categorize_risk 1 = ⟨"Critical Risk", "red", 4⟩ := by
  refine ⟨?_, ?_, ?_, ?_, ?_, ?_, ?_, ?_, ?_, ?_, ?_, ?_⟩ <;>
    simp only [categorize_risk, simple_batch_categorize_risk] <;>
    split_ifs <;>
    simp_all [RiskCategory.mk.injEq] <;>
    first
      | linarith
      | (intro h; linarith)

/-! ### Cohort query service (src/backend/main.py, `get_patients`)

A served patient record restricted to the fields the query service reads:
identifier, demographics, risk assessment, and category triple. -/

structure Patient where
  patient_id : String
  name : String
  age : ℤ
  gender : String
  risk_probability : ℚ
  risk_percentage : ℚ
  level : String
  color : String
  priority : ℕ
deriving DecidableEq

/-- The optional query parameters of `GET /patients`
(src/backend/main.py lines 103-111), with their defaults `limit=100`,
`offset=0` supplied by the caller. -/
structure PatientQuery where
  risk_level : Option String
  min_risk : Option ℚ
  max_risk : Option ℚ
  age_min : Option ℤ
  age_max : Option ℤ
  gender : Option String
  limit : ℤ
  offset : ℤ
deriving DecidableEq

/-- One filter stage guarded by `if x is not None:` — a list comprehension
producing a fresh list when the parameter is present, the incoming list
unchanged otherwise. -/
def optFilter {β : Type} (o : Option β) (test : β → Patient → Bool)
    (ps : List Patient) : List Patient :=
  match o with
  | some b => ps.filter (test b)
  | none => ps

/-- One filter stage guarded by Python truthiness (`if risk_level:`,
`if gender:`): `None` and the empty string both skip the stage. -/
def optStrFilter (o : Option String) (test : String → Patient → Bool)
    (ps : List Patient) : List Patient :=
  match o with
  | some s => if s == "" then ps else ps.filter (test s)
  | none => ps

/-- The six sequential filters of `get_patients`
(src/backend/main.py lines 123-142), in source order. -/
def filter_patients (q : PatientQuery) (ps : List Patient) : List Patient :=
  optStrFilter q.gender (fun g p => lowerString p.gender == lowerString g)
    (optFilter q.age_max (fun a p => decide (p.age ≤ a))
      (optFilter q.age_min (fun a p => decide (a ≤ p.age))
        (optFilter q.max_risk (fun m p => decide (p.risk_percentage ≤ m))
          (optFilter q.min_risk (fun m p => decide (m ≤ p.risk_percentage))
            (optStrFilter q.risk_level (fun s p => p.level == s) ps)))))

/-- Embeds `filtered_patients.sort(key=lambda x: x["risk_percentage"], reverse=True)`
(src/backend/main.py line 145): a stable sort by descending risk percentage,
modelled by the stable `List.mergeSort` with the reversed comparison. -/
def sort_patients_desc (ps : List Patient) : List Patient :=
  ps.mergeSort (fun a b => decide (b.risk_percentage ≤ a.risk_percentage))

/-- Resolution of one Python slice endpoint for a list of length `n`:
a negative index counts from the end (floored at 0), a non-negative index
is capped at `n`. -/
def pySliceIdx (n : ℕ) (i : ℤ) : ℕ :=
  if i < 0 then ((n : ℤ) + i).toNat else min i.toNat n

/-- Python `l[a:b]`: the elements between the resolved endpoints. -/
def pySlice {α : Type} (l : List α) (a b : ℤ) : List α :=
  (l.take (pySliceIdx l.length b)).drop (pySliceIdx l.length a)

/-- The JSON body returned by `get_patients`
(src/backend/main.py lines 151-165), restricted to the fields the
specification talks about. -/
structure PatientsResponse where
  patients : List Patient
  total_count : ℕ
  returned_count : ℕ
  offset : ℤ
  limit : ℤ
deriving DecidableEq

/-- Embeds `get_patients` as a pure function of the stored patient list:
filter, sort descending by risk, then `filtered_patients[offset:offset+limit]`
(src/backend/main.py lines 121-165). -/
def get_patients_response (q : PatientQuery) (stored : List Patient) : PatientsResponse :=
  let filtered := filter_patients q stored
  let sorted := sort_patients_desc filtered
  let page := pySlice sorted q.offset (q.offset + q.limit)
  { patients := page
    total_count := sorted.length
    returned_count := page.length
    offset := q.offset
    limit := q.limit }

/-- The process-wide `dashboard_data` cache read by every endpoint
(src/backend/main.py line 36), restricted to the patient list. -/
structure DashboardData where
  patients : List Patient
deriving DecidableEq

/-- Whether any of the six filter conditionals fires, i.e. whether any list
comprehension runs.  When none fires, `filtered_patients` is still the very
list object stored in `dashboard_data["patients"]`. -/
def get_patients_filter_applied (q : PatientQuery) : Bool :=
  (match q.risk_level with | some s => !(s == "") | none => false) ||
  q.min_risk.isSome || q.max_risk.isSome ||
  q.age_min.isSome || q.age_max.isSome ||
  (match q.gender with | some s => !(s == "") | none => false)

/-- Embeds `get_patients` with its frame effect on the shared `dashboard_data`:
`.sort` mutates the list object it is called on, and when no filter stage
ran that object is the stored list itself, so the stored list ends up
sorted; when a comprehension ran, the sort mutates only the fresh list. -/
def get_patients (q : PatientQuery) (data : DashboardData) :
    PatientsResponse × DashboardData :=
  (get_patients_response q data.patients,
   if get_patients_filter_applied q then data
   else { patients := sort_patients_desc data.patients })

/-! Transitivity and totality of the descending-risk comparison, needed by
the `mergeSort` lemmas. -/

theorem riskDesc_trans (a b c : Patient)
    (hab : (fun a b => decide (b.risk_percentage ≤ a.risk_percentage)) a b)
    (hbc : (fun a b => decide (b.risk_percentage ≤ a.risk_percentage)) b c) :
    (fun a b => decide (b.risk_percentage ≤ a.risk_percentage)) a c := by
  simp only [decide_eq_true_eq] at *
  exact le_trans hbc hab

theorem riskDesc_total (a b : Patient) :
    ((fun a b => decide (b.risk_percentage ≤ a.risk_percentage)) a b ||
     (fun a b => decide (b.risk_percentage ≤ a.risk_percentage)) b a) := by
  simp only [Bool.or_eq_true, decide_eq_true_eq]
  exact le_total b.risk_percentage a.risk_percentage

theorem sort_patients_desc_sorted (ps : List Patient) :
    (sort_patients_desc ps).Pairwise
      (fun a b => b.risk_percentage ≤ a.risk_percentage) := by
  have h := List.sorted_mergeSort riskDesc_trans riskDesc_total ps
  exact h.imp fun hab => of_decide_eq_true hab

theorem sort_patients_desc_length (ps : List Patient) :
    (sort_patients_desc ps).length = ps.length :=
  List.length_mergeSort ps

/-! Resolution of Python slices with the indices the claims use. -/

theorem take_min_length {α : Type} (l : List α) (k : ℕ) :
    l.take (min k l.length) = l.take k := by
  rcases le_total k l.length with h | h
  · rw [min_eq_left h]
  · rw [min_eq_right h, List.take_length, List.take_of_length_le h]

theorem drop_min_of_le {α : Type} (x : List α) {k n : ℕ} (hx : x.length ≤ n) :
    x.drop (min k n) = x.drop k := by
  rcases le_total k n with h | h
  · rw [min_eq_left h]
  · rw [min_eq_right h, List.drop_eq_nil_of_le hx,
      List.drop_eq_nil_of_le (le_trans hx h)]

theorem pySlice_of_nonneg {α : Type} (l : List α) {a b : ℤ}
    (ha : 0 ≤ a) (hb : 0 ≤ b) :
    pySlice l a b = (l.take b.toNat).drop a.toNat := by
  unfold pySlice pySliceIdx
  rw [if_neg (not_lt.2 ha), if_neg (not_lt.2 hb), take_min_length]
  exact drop_min_of_le _ (List.take_sublist _ _).length_le

theorem pySlice_of_neg_start {α : Type} (l : List α) {a b : ℤ}
    (ha : a < 0) (hb : 0 ≤ b) :
    pySlice l a b = (l.take b.toNat).drop ((l.length : ℤ) + a).toNat := by
  unfold pySlice pySliceIdx
  rw [if_pos ha, if_neg (not_lt.2 hb), take_min_length]

/-! Membership characterization of the filter stages. -/

theorem mem_optFilter {β : Type} (o : Option β) (test : β → Patient → Bool)
    (ps : List Patient) (p : Patient) :
    p ∈ optFilter o test ps ↔ p ∈ ps ∧ ∀ b, o = some b → test b p := by
  cases o <;> simp [optFilter, List.mem_filter]

theorem mem_optStrFilter (o : Option String) (test : String → Patient → Bool)
    (ps : List Patient) (p : Patient) :
    p ∈ optStrFilter o test ps ↔ p ∈ ps ∧ ∀ s, o = some s → s ≠ "" → test s p := by
  cases o with
  | none => simp [optStrFilter]
  | some s =>
    simp only [optStrFilter]
    by_cases hs : s = ""
    · subst hs
      simp
    · rw [if_neg (by simpa using hs)]
      simp only [List.mem_filter]
      constructor
      · rintro ⟨hp, ht⟩
        refine ⟨hp, ?_⟩
        intro s' hs' _
        injection hs' with h
        rw [← h]
        exact ht
      · rintro ⟨hp, h⟩
        exact ⟨hp, h s rfl hs⟩

/-- Membership in the fully filtered list, spelled out
predicate by predicate. -/
theorem mem_filter_patients (q : PatientQuery) (ps : List Patient) (p : Patient) :
    p ∈ filter_patients q ps ↔ p ∈ ps ∧
      (∀ s, q.risk_level = some s → s ≠ "" → p.level = s) ∧
      (∀ m, q.min_risk = some m → m ≤ p.risk_percentage) ∧
      (∀ m, q.max_risk = some m → p.risk_percentage ≤ m) ∧
      (∀ a, q.age_min = some a → a ≤ p.age) ∧
      (∀ a, q.age_max = some a → p.age ≤ a) ∧
      (∀ g, q.gender = some g → g ≠ "" → lowerString p.gender = lowerString g) := by
  simp only [filter_patients, mem_optFilter, mem_optStrFilter,
    decide_eq_true_eq, beq_iff_eq]
  tauto

/-- C2: for every request with non-negative offset and limit, the returned
page is the slice, taken after filtering and sorting, of the
descending-by-risk-percentage sort of the filtered records; the page is
sorted descending by risk percentage; and the returned count is at most
`limit` and at most `total_count - offset` (truncated subtraction on ℕ,
matching the claim's restriction to non-negative values). -/
theorem spec_C2 (q : PatientQuery) (stored : List Patient)
    (ho : 0 ≤ q.offset) (hl : 0 ≤ q.limit) :
    (get_patients_response q stored).patients =
      ((sort_patients_desc (filter_patients q stored)).take
        (q.offset + q.limit).toNat).drop q.offset.toNat ∧
    (get_patients_response q stored).patients.Pairwise
      (fun a b => b.risk_percentage ≤ a.risk_percentage) ∧
    (get_patients_response q stored).returned_count ≤ q.limit.toNat ∧
    (get_patients_response q stored).returned_count ≤
      (get_patients_response q stored).total_count - q.offset.toNat := by
  have hb : (0 : ℤ) ≤ q.offset + q.limit := add_nonneg ho hl
  have hpage : (get_patients_response q stored).patients =
      ((sort_patients_desc (filter_patients q stored)).take
        (q.offset + q.limit).toNat).drop q.offset.toNat := by
    simp only [get_patients_response]
    exact pySlice_of_nonneg _ ho hb
  refine ⟨hpage, ?_, ?_, ?_⟩
  · rw [hpage]
    exact ((sort_patients_desc_sorted (filter_patients q stored)).sublist
      (List.Sublist.trans (List.drop_sublist _ _) (List.take_sublist _ _)))
  · have : (get_patients_response q stored).returned_count =
        (((sort_patients_desc (filter_patients q stored)).take
          (q.offset + q.limit).toNat).drop q.offset.toNat).length := by
      simp only [get_patients_response]
      rw [pySlice_of_nonneg _ ho hb]
    rw [this, List.length_drop, List.length_take, Int.toNat_add ho hl]
    omega
  · have hr : (get_patients_response q stored).returned_count =
        (((sort_patients_desc (filter_patients q stored)).take
          (q.offset + q.limit).toNat).drop q.offset.toNat).length := by
      simp only [get_patients_response]
      rw [pySlice_of_nonneg _ ho hb]
    have ht : (get_patients_response q stored).total_count =
        (sort_patients_desc (filter_patients q stored)).length := rfl
    rw [hr, ht, List.length_drop, List.length_take]
    omega

/-- A concrete high-risk patient used by several witnesses. -/
def patientA : Patient :=
  ⟨"p1", "Patient 1", 70, "male", 3/10, 30, "High Risk", "orange", 3⟩

/-- A concrete medium-risk patient used by several witnesses. -/
def patientB : Patient :=
  ⟨"p2", "Patient 2", 60, "female", 2/10, 20, "Medium Risk", "yellow", 2⟩

/-- A concrete medium-risk patient with lower risk. -/
def patientC : Patient :=
  ⟨"p3", "Patient 3", 50, "male", 1/10, 10, "Medium Risk", "yellow", 2⟩

/-- The query with no filters and the default pagination
(`limit=100`, `offset=0`). -/
def defaultQuery : PatientQuery :=
  ⟨none, none, none, none, none, none, 100, 0⟩

/-- Witness for C2 at a concrete request: default pagination over a
one-patient store returns at most `limit` records. -/
theorem spec_C2_witness :
    (get_patients_response defaultQuery [patientA]).returned_count ≤
      (100 : ℤ).toNat :=
  (spec_C2 defaultQuery [patientA] (by decide) (by decide)).2.2.1

/-- The request `GET /patients?offset=-1&limit=2` with no filters. -/
def qNegOffset : PatientQuery :=
  ⟨none, none, none, none, none, none, 2, -1⟩

/-- The same request with `offset=0`. -/
def qZeroOffset : PatientQuery :=
  ⟨none, none, none, none, none, none, 2, 0⟩

/-- A concrete three-patient store, already in descending risk order. -/
def storedThree : List Patient := [patientA, patientB, patientC]

unseal List.merge List.mergeSort in
/-- Counterexample to C6: the code passes a negative offset straight into the
Python slice, so `offset=-1, limit=2` over a three-patient store returns the
empty page (`l[2:1]`), while clamping the offset to 0 would return the first
two patients — the two requests do not behave alike. -/
theorem spec_C6_counterexample :
    (get_patients_response qNegOffset storedThree).patients ≠
      (get_patients_response qZeroOffset storedThree).patients := by
  decide

/-- C6 as amended: the offset is not clamped; for a negative offset the slice
start is resolved relative to the end of the sorted filtered list
(`total_count + offset`, floored at zero), so the page is taken from the end
of the result set rather than from its beginning. -/
theorem spec_C6 (q : PatientQuery) (stored : List Patient)
    (hneg : q.offset < 0) (hb : 0 ≤ q.offset + q.limit) :
    (get_patients_response q stored).patients =
      ((sort_patients_desc (filter_patients q stored)).take
          (q.offset + q.limit).toNat).drop
        (((sort_patients_desc (filter_patients q stored)).length : ℤ) +
          q.offset).toNat := by
  simp only [get_patients_response]
  exact pySlice_of_neg_start _ hneg hb

/-- Witness for C6 (amended) at the concrete negative-offset request. -/
theorem spec_C6_witness :
    (get_patients_response qNegOffset storedThree).patients =
      ((sort_patients_desc (filter_patients qNegOffset storedThree)).take
          ((-1 : ℤ) + 2).toNat).drop
        (((sort_patients_desc (filter_patients qNegOffset storedThree)).length : ℤ) +
          (-1 : ℤ)).toNat :=
  spec_C6 qNegOffset storedThree (by decide) (by decide)

/-- C7: the filtered set is characterized by the conjunction of the supplied
predicates — category equality, risk-percentage range, age range, and
case-insensitive sex equality — absent predicates imposing no constraint
(the service also treats an explicitly empty category or sex string as
absent); and an inverted range, whether on risk or on age, produces the
empty result set rather than an error. -/
theorem spec_C7 (q : PatientQuery) (ps : List Patient) (p : Patient)
    (mn mx : ℚ) (amn amx : ℤ) :
    (p ∈ filter_patients q ps ↔ p ∈ ps ∧
      (∀ s, q.risk_level = some s → s ≠ "" → p.level = s) ∧
      (∀ m, q.min_risk = some m → m ≤ p.risk_percentage) ∧
      (∀ m, q.max_risk = some m → p.risk_percentage ≤ m) ∧
      (∀ a, q.age_min = some a → a ≤ p.age) ∧
      (∀ a, q.age_max = some a → p.age ≤ a) ∧
      (∀ g, q.gender = some g → g ≠ "" → lowerString p.gender = lowerString g)) ∧
    (q.min_risk = some mn → q.max_risk = some mx → mx < mn →
      filter_patients q ps = []) ∧
    (q.age_min = some amn → q.age_max = some amx → amx < amn →
      filter_patients q ps = []) := by
  refine ⟨mem_filter_patients q ps p, ?_, ?_⟩
  · intro hmn hmx hlt
    rw [List.eq_nil_iff_forall_not_mem]
    intro x hx
    rw [mem_filter_patients] at hx
    have h1 := hx.2.2.1 mn hmn
    have h2 := hx.2.2.2.1 mx hmx
    linarith
  · intro hmn hmx hlt
    rw [List.eq_nil_iff_forall_not_mem]
    intro x hx
    rw [mem_filter_patients] at hx
    have h1 := hx.2.2.2.2.1 amn hmn
    have h2 := hx.2.2.2.2.2.1 amx hmx
    omega

/-- A request whose risk range has min greater than max. -/
def qBadRange : PatientQuery :=
  ⟨none, some 30, some 20, none, none, none, 100, 0⟩

/-- Witness for C7: an inverted risk range empties the result set. -/
theorem spec_C7_witness : filter_patients qBadRange [patientA] = [] :=
  (spec_C7 qBadRange [patientA] patientA 30 20 0 0).2.1 rfl rfl (by norm_num)

unseal List.merge List.mergeSort in
/-- C10: a `GET /patients` request with no filter predicates aliases the
stored list, so the in-place descending sort mutates the shared
`dashboard_data`: afterwards the stored list is the sorted list, and on a
store that was not already sorted this differs from the pre-request state. -/
theorem spec_C10 :
    (∀ data : DashboardData,
      (get_patients defaultQuery data).2.patients =
        sort_patients_desc data.patients) ∧
    (get_patients defaultQuery ⟨[patientC, patientA]⟩).2.patients ≠
      [patientC, patientA] := by
  constructor
  · intro data
    simp only [get_patients]
    rw [if_neg (by decide : ¬ (get_patients_filter_applied defaultQuery = true))]
  · decide

/-! ### Detail lookup and the synthesized risk trend
(src/backend/main.py, `get_patient_details`, lines 167-196) -/

/-- One synthesized point of the demo risk trend. -/
structure TrendPoint where
  date : String
  risk : ℚ
deriving DecidableEq

/-- The four-point `risk_trend` series attached by `get_patient_details`
(src/backend/main.py lines 191-196): `max(0.05, pct - 5)`,
`max(0.05, pct - 3)`, `max(0.05, pct - 1)`, then the current percentage. -/
def risk_trend (pct : ℚ) : List TrendPoint :=
  [⟨"2024-01-01", max (5/100) (pct - 5)⟩,
   ⟨"2024-01-15", max (5/100) (pct - 3)⟩,
   ⟨"2024-02-01", max (5/100) (pct - 1)⟩,
   ⟨"2024-02-15", pct⟩]

/-- The linear scan of `get_patient_details`
(src/backend/main.py lines 178-182): first patient with the given id. -/
def find_patient (pid : String) (ps : List Patient) : Option Patient :=
  ps.find? (fun p => p.patient_id == pid)

/-- A patient whose rounded risk percentage is zero. -/
def patientZero : Patient :=
  ⟨"p0", "Patient 0", 40, "female", 0, 0, "Low Risk", "green", 1⟩

/-- Counterexample to C9: for a patient with risk percentage 0 the trend is
`[0.05, 0.05, 0.05, 0]`, which is not monotonically non-decreasing (the
floor `max(0.05, ...)` of the three synthetic points exceeds the final
current value). -/
theorem spec_C9_counterexample :
    find_patient "p0" [patientZero] = some patientZero ∧
    ¬ List.Chain' (· ≤ ·)
        ((risk_trend patientZero.risk_percentage).map TrendPoint.risk) := by
  refine ⟨rfl, ?_⟩
  intro h
  have hr : (risk_trend patientZero.risk_percentage).map TrendPoint.risk =
      [5/100, 5/100, 5/100, 0] := by
    show [max (5/100 : ℚ) (0 - 5), max (5/100 : ℚ) (0 - 3),
      max (5/100 : ℚ) (0 - 1), (0 : ℚ)] = [5/100, 5/100, 5/100, 0]
    rw [max_eq_left (by norm_num), max_eq_left (by norm_num),
      max_eq_left (by norm_num)]
  rw [hr] at h
  simp only [List.chain'_cons, List.chain'_singleton, and_true] at h
  have := h.2.2
  norm_num at this

/-- C9 as amended: for every patient found by the detail lookup whose current
risk percentage is at least the 0.05 floor, the synthesized trend is
monotonically non-decreasing, and its last point always equals the current
risk percentage exactly.  (For a percentage below 0.05 — i.e. the rounded
value 0.0 — the first three points sit at the floor 0.05 above the final
point, so the restriction is necessary.) -/
theorem spec_C9 (ps : List Patient) (pid : String) (p : Patient)
    (hfind : find_patient pid ps = some p)
    (hp : 5/100 ≤ p.risk_percentage) :
    List.Chain' (· ≤ ·) ((risk_trend p.risk_percentage).map TrendPoint.risk) ∧
    ((risk_trend p.risk_percentage).map TrendPoint.risk).getLast? =
      some p.risk_percentage := by
  constructor
  · simp only [risk_trend, List.map_cons, List.map_nil, List.chain'_cons,
      List.chain'_singleton, and_true]
    exact ⟨max_le_max le_rfl (by linarith),
      max_le_max le_rfl (by linarith),
      max_le hp (by linarith)⟩
  · rfl

/-- Witness for C9 at a concrete store: the looked-up patient with risk
percentage 30 gets a non-decreasing trend ending at 30. -/
theorem spec_C9_witness :
    List.Chain' (· ≤ ·)
      ((risk_trend patientA.risk_percentage).map TrendPoint.risk) ∧
    ((risk_trend patientA.risk_percentage).map TrendPoint.risk).getLast? =
      some patientA.risk_percentage :=
  spec_C9 [patientA] "p1" patientA rfl (by norm_num [patientA])

/-! ### Eligibility filtering of raw records

`BatchPredictor.prepare_features_for_prediction`
(src/model/batch_predictions.py lines 90-93) and
`ChronicCarePredictor.extract_temporal_features`
(src/model/complete_ml_pipeline.py lines 154-165).  A missing / unparsable
date yields `NaN` in pandas, on which every comparison is false; this is
modelled with `Option` (and `fillna(0)` on the pipeline's care duration with
`Option.getD 0`). -/

/-- The temporal fields of one raw record that the eligibility filters read. -/
structure RawPatientRow where
  total_care_duration_days : Option ℤ
  age_at_last_encounter : Option ℚ
deriving DecidableEq

/-- The batch predictor's `valid_patients` mask
(src/model/batch_predictions.py line 90):
`(total_care_duration_days >= 30) & (age_at_last_encounter >= 18)`. -/
def batch_predictions_valid (r : RawPatientRow) : Bool :=
  (match r.total_care_duration_days with
   | some d => decide (30 ≤ d)
   | none => false) &&
  (match r.age_at_last_encounter with
   | some a => decide (18 ≤ a)
   | none => false)

/-- The training pipeline's `valid_patients` mask
(src/model/complete_ml_pipeline.py lines 156-161): duration (with
`fillna(0)`) at least 30, age present, `age > 0` and `age < 120`. -/
def pipeline_valid (r : RawPatientRow) : Bool :=
  decide (30 ≤ r.total_care_duration_days.getD 0) &&
  r.age_at_last_encounter.isSome &&
  (match r.age_at_last_encounter with
   | some a => decide (0 < a) && decide (a < 120)
   | none => false)

/-- Embeds `self.df = self.df[valid_patients].copy()` in the batch predictor:
ineligible rows are dropped from the batch. -/
def batch_predictions_filter (rs : List RawPatientRow) : List RawPatientRow :=
  rs.filter batch_predictions_valid

/-- Embeds `self.df = self.df[valid_patients].copy()` in the training pipeline. -/
def pipeline_filter (rs : List RawPatientRow) : List RawPatientRow :=
  rs.filter pipeline_valid

/-- The eligibility condition as the claim words it: care-duration at least
30 days and derived age strictly between 0 and 120. -/
def claim_C4_eligible (r : RawPatientRow) : Prop :=
  (∃ d, r.total_care_duration_days = some d ∧ 30 ≤ d) ∧
  (∃ a, r.age_at_last_encounter = some a ∧ 0 < a ∧ a < 120)

/-- A raw record with 100 days of care and a derived age of 150 years. -/
def rowAge150 : RawPatientRow := ⟨some 100, some 150⟩

/-- Counterexample to C4: the batch predictor keeps a record with age 150
(its mask is `age >= 18` with no upper bound), although the claim says a
record is included only when `0 < age < 120`. -/
theorem spec_C4_counterexample :
    batch_predictions_filter [rowAge150] = [rowAge150] ∧
    ¬ claim_C4_eligible rowAge150 := by
  constructor
  · decide
  · rintro ⟨-, a, ha, -, h120⟩
    rw [show a = 150 from by injection ha with h; exact h.symm] at h120
    norm_num at h120

/-- C4 as amended: a record survives the batch predictor's filter iff its
care duration is at least 30 days and its derived age is at least 18 (no
upper bound), while the claimed bounds `0 < age < 120` (together with
duration ≥ 30) are exactly the training pipeline's filter; in both scripts
ineligible records are dropped from the batch entirely — membership in the
filtered batch is equivalent to membership in the input plus eligibility —
never zero-filled. -/
theorem spec_C4 (rs : List RawPatientRow) (r : RawPatientRow) :
    (r ∈ batch_predictions_filter rs ↔ r ∈ rs ∧
      (∃ d, r.total_care_duration_days = some d ∧ 30 ≤ d) ∧
      (∃ a, r.age_at_last_encounter = some a ∧ 18 ≤ a)) ∧
    (r ∈ pipeline_filter rs ↔ r ∈ rs ∧
      30 ≤ r.total_care_duration_days.getD 0 ∧
      (∃ a, r.age_at_last_encounter = some a ∧ 0 < a ∧ a < 120)) := by
  constructor
  · rw [batch_predictions_filter, List.mem_filter, batch_predictions_valid]
    cases hd : r.total_care_duration_days <;>
      cases ha : r.age_at_last_encounter <;>
      simp [hd, ha]
  · rw [pipeline_filter, List.mem_filter, pipeline_valid]
    cases ha : r.age_at_last_encounter <;> simp [ha, and_assoc]

/-! ### Risk-factor explanations

`BatchPredictor.create_patient_records` (src/model/batch_predictions.py
lines 317-338) with `translate_feature_name` (lines 439-459).  The
attribution mapping for one record is a list of (feature name, SHAP value)
pairs in the schema order of `feature_names`; a record outside the sampled
SHAP subset has no attribution (`none`). -/

/-- The fixed clinical-label lookup table of `translate_feature_name`. -/
def feature_translations : List (String × String) :=
  [("total_care_duration_days", "Length of Care Relationship"),
   ("age_at_last_encounter", "Patient Age"),
   ("avg_encounter_duration_filled", "Average Appointment Duration"),
   ("condition_count", "Number of Chronic Conditions"),
   ("Body_Mass_Index_filled", "Body Mass Index"),
   ("glucose_diabetic", "Diabetic Glucose Levels"),
   ("hba1c_diabetic", "Diabetic HbA1c Levels"),
   ("condition_hypertension", "Hypertension Diagnosis"),
   ("condition_prediabetes", "Prediabetes Diagnosis"),
   ("condition_heart_failure", "Heart Failure Diagnosis"),
   ("procedure_count", "Number of Medical Procedures"),
   ("multiple_conditions", "Multiple Chronic Conditions"),
   ("creatinine_high", "Elevated Creatinine Levels"),
   ("bmi_obese", "Obesity (BMI >=30)"),
   ("high_utilization", "High Healthcare Utilization"),
   ("long_term_care", "Long-term Care Relationship")]

/-- Python `c.replace('_', ' ')` for the single-character pattern used here. -/
def underscoreToSpace (s : String) : String :=
  ⟨s.data.map (fun c => if c = '_' then ' ' else c)⟩

/-- Embeds `translate_feature_name`: table lookup with the humanized fallback
`technical_name.replace('_', ' ').title()`. -/
def translate_feature_name (technical_name : String) : String :=
  match feature_translations.lookup technical_name with
  | some v => v
  | none => titleString (underscoreToSpace technical_name)

/-- Embeds `shap_importance.sort(key=lambda x: abs(x[1]), reverse=True)`:
a stable sort by descending absolute contribution, so ties keep the
original schema order. -/
def sort_attr_abs_desc (attr : List (String × ℚ)) : List (String × ℚ) :=
  attr.mergeSort (fun x y => decide (|y.2| ≤ |x.2|))

/-- One entry of the served `risk_factors` explanation. -/
structure RiskFactor where
  factor : String
  impact : ℚ
  direction : String
deriving DecidableEq

/-- One explanation entry built from a (feature, contribution) pair
(src/model/batch_predictions.py lines 327-334). -/
def mk_risk_factor (x : String × ℚ) : RiskFactor :=
  { factor := translate_feature_name x.1
    impact := x.2
    direction := if 0 < x.2 then "increases" else "decreases" }

/-- The `risk_factors` field of one patient record: top 5 attribution
entries by descending absolute contribution when an attribution mapping is
available, the empty list otherwise (both `else` branches at
src/model/batch_predictions.py lines 336-338). -/
def create_risk_factors : Option (List (String × ℚ)) → List RiskFactor
  | none => []
  | some attr => ((sort_attr_abs_desc attr).take 5).map mk_risk_factor

theorem absDesc_trans (a b c : String × ℚ)
    (hab : (fun x y : String × ℚ => decide (|y.2| ≤ |x.2|)) a b)
    (hbc : (fun x y : String × ℚ => decide (|y.2| ≤ |x.2|)) b c) :
    (fun x y : String × ℚ => decide (|y.2| ≤ |x.2|)) a c := by
  simp only [decide_eq_true_eq] at *
  exact le_trans hbc hab

theorem absDesc_total (a b : String × ℚ) :
    ((fun x y : String × ℚ => decide (|y.2| ≤ |x.2|)) a b ||
     (fun x y : String × ℚ => decide (|y.2| ≤ |x.2|)) b a) := by
  simp only [Bool.or_eq_true, decide_eq_true_eq]
  exact le_total _ _

/-- C5: for every attribution mapping the explanation has at most 5 entries,
is sorted by descending absolute contribution, ties between entries keep
their original schema order (stability: an order-respecting pair of the
input stays in that order in the sorted list), each entry's direction is
"increases" exactly when its contribution is strictly positive and
"decreases" otherwise; and a record with no attribution gets the empty
explanation. -/
theorem spec_C5 (attr : List (String × ℚ)) (x y : String × ℚ) :
    create_risk_factors none = [] ∧
    (create_risk_factors (some attr)).length ≤ 5 ∧
    (create_risk_factors (some attr)).Pairwise
      (fun f g => |g.impact| ≤ |f.impact|) ∧
    (∀ f ∈ create_risk_factors (some attr),
      f.direction = if 0 < f.impact then "increases" else "decreases") ∧
    (|x.2| = |y.2| → List.Sublist [x, y] attr →
      List.Sublist [x, y] (sort_attr_abs_desc attr)) := by
  refine ⟨rfl, ?_, ?_, ?_, ?_⟩
  · simp only [create_risk_factors, List.length_map, List.length_take]
    exact min_le_left _ _
  · have hs : (sort_attr_abs_desc attr).Pairwise
        (fun a b : String × ℚ => |b.2| ≤ |a.2|) :=
      (List.sorted_mergeSort absDesc_trans absDesc_total attr).imp
        fun h => of_decide_eq_true h
    have ht : ((sort_attr_abs_desc attr).take 5).Pairwise
        (fun a b : String × ℚ => |b.2| ≤ |a.2|) :=
      hs.sublist (List.take_sublist _ _)
    simp only [create_risk_factors, List.pairwise_map]
    exact ht.imp fun h => h
  · intro f hf
    simp only [create_risk_factors, List.mem_map] at hf
    obtain ⟨z, -, rfl⟩ := hf
    rfl
  · intro heq hsub
    exact List.pair_sublist_mergeSort absDesc_trans absDesc_total
      (by simp [heq]) hsub

/-- Witness for C5: a concrete two-entry attribution with tied absolute
contributions keeps its schema order through the sort. -/
theorem spec_C5_witness :
    List.Sublist [("age_at_last_encounter", (1 : ℚ)), ("bmi_obese", -1)]
      (sort_attr_abs_desc
        [("age_at_last_encounter", (1 : ℚ)), ("bmi_obese", -1)]) :=
  (spec_C5 [("age_at_last_encounter", (1 : ℚ)), ("bmi_obese", -1)]
      ("age_at_last_encounter", (1 : ℚ)) ("bmi_obese", -1)).2.2.2.2
    (by norm_num) (List.Sublist.refl _)

/-! ### Condition extraction

`BatchPredictor._extract_conditions_from_patient`
(src/model/batch_predictions.py lines 345-437), parsed-list branch: the
free-text condition strings are filtered for truthiness, lowercased, then
matched in order against the keyword rules; every unmatched string is
appended verbatim to the `other_conditions` bucket and contributes one
`"other"` entry to `detected_conditions`; `total_conditions` is the length
of `detected_conditions`. -/

/-- The six normalized condition categories. -/
inductive CondCategory where
  | diabetes
  | hypertension
  | heart_disease
  | kidney_disease
  | stroke
  | copd
deriving DecidableEq

/-- The string appended to `detected_conditions` for each category. -/
def CondCategory.name : CondCategory → String
  | .diabetes => "diabetes"
  | .hypertension => "hypertension"
  | .heart_disease => "heart_disease"
  | .kidney_disease => "kidney_disease"
  | .stroke => "stroke"
  | .copd => "copd"

/-- The ordered keyword-matching rules of the `elif` chain
(src/model/batch_predictions.py lines 376-412): first match wins,
`none` for a condition string that matches no rule. -/
def matched_category (c : String) : Option CondCategory :=
  if strContains c "diabetes" || strContains c "prediabetes" then
    some .diabetes
  else if strContains c "hypertension" || strContains c "high blood pressure" then
    some .hypertension
  else if strContains c "heart" || strContains c "cardiac" ||
      strContains c "coronary" || strContains c "myocardial" ||
      strContains c "angina" then
    some .heart_disease
  else if strContains c "kidney" || strContains c "renal" ||
      strContains c "nephritis" then
    some .kidney_disease
  else if strContains c "stroke" || strContains c "cerebrovascular" ||
      strContains c "tia" then
    some .stroke
  else if strContains c "copd" || strContains c "pulmonary" ||
      strContains c "respiratory" || strContains c "emphysema" ||
      strContains c "bronchitis" || strContains c "asthma" then
    some .copd
  else
    none

/-- The `conditions` dictionary built by
`_extract_conditions_from_patient` (src/model/batch_predictions.py lines
350-359). -/
structure ConditionSummary where
  diabetes : ℕ
  hypertension : ℕ
  heart_disease : ℕ
  kidney_disease : ℕ
  stroke : ℕ
  copd : ℕ
  other_conditions : List String
  total_conditions : ℕ
deriving DecidableEq

/-- Sets `conditions[cat] = 1` for the matched category. -/
def setFlag (s : ConditionSummary) : CondCategory → ConditionSummary
  | .diabetes => { s with diabetes := 1 }
  | .hypertension => { s with hypertension := 1 }
  | .heart_disease => { s with heart_disease := 1 }
  | .kidney_disease => { s with kidney_disease := 1 }
  | .stroke => { s with stroke := 1 }
  | .copd => { s with copd := 1 }

/-- Read one category flag. -/
def flagOf (s : ConditionSummary) : CondCategory → ℕ
  | .diabetes => s.diabetes
  | .hypertension => s.hypertension
  | .heart_disease => s.heart_disease
  | .kidney_disease => s.kidney_disease
  | .stroke => s.stroke
  | .copd => s.copd

/-- Sum of the six category flags; since every flag is 0 or 1 and is set
exactly when the category was matched, this is the number of distinct
matched categories. -/
def flagSum (s : ConditionSummary) : ℕ :=
  s.diabetes + s.hypertension + s.heart_disease +
    s.kidney_disease + s.stroke + s.copd

/-- The all-zero initial dictionary. -/
def emptyConditionSummary : ConditionSummary := ⟨0, 0, 0, 0, 0, 0, [], 0⟩

/-- One iteration of the `for condition in conditions_list:` loop, carrying
the dictionary and the `detected_conditions` list.  A matched category sets
its flag and is appended to `detected_conditions` only if not already
present; an unmatched string is appended to `other_conditions` and
contributes one `"other"` entry. -/
def extract_step (st : ConditionSummary × List String) (c : String) :
    ConditionSummary × List String :=
  let cond := lowerString (trimString c)
  match matched_category cond with
  | some cat =>
    (setFlag st.1 cat, if cat.name ∈ st.2 then st.2 else st.2 ++ [cat.name])
  | none =>
    ({ st.1 with other_conditions := st.1.other_conditions ++ [cond] },
     st.2 ++ ["other"])

/-- The parsed-list branch of `_extract_conditions_from_patient`:
build `conditions_list` (truthy, stripped-nonempty entries, lowercased),
run the loop, then set `total_conditions` to the length of
`detected_conditions`. -/
def extract_conditions (raw : List String) : ConditionSummary :=
  let conditions_list :=
    (raw.filter (fun c => !(c == "") && !(trimString c == ""))).map lowerString
  let res := conditions_list.foldl extract_step (emptyConditionSummary, [])
  { res.1 with total_conditions := res.2.length }

/-! Bookkeeping lemmas for the extraction loop. -/

theorem condName_inj : ∀ c c' : CondCategory, c.name = c'.name → c = c' := by
  intro c c' h
  cases c <;> cases c' <;> first | rfl | simp [CondCategory.name] at h

theorem condName_ne_other : ∀ c : CondCategory, c.name ≠ "other" := by
  intro c
  cases c <;> simp [CondCategory.name]

theorem flagOf_setFlag_self (s : ConditionSummary) (cat : CondCategory) :
    flagOf (setFlag s cat) cat = 1 := by
  cases cat <;> rfl

theorem flagOf_setFlag_ne (s : ConditionSummary) {cat cat' : CondCategory}
    (h : cat' ≠ cat) : flagOf (setFlag s cat) cat' = flagOf s cat' := by
  cases cat <;> cases cat' <;> first | rfl | exact absurd rfl h

theorem other_setFlag (s : ConditionSummary) (cat : CondCategory) :
    (setFlag s cat).other_conditions = s.other_conditions := by
  cases cat <;> rfl

theorem flagSum_setFlag_of_one (s : ConditionSummary) (cat : CondCategory)
    (h : flagOf s cat = 1) : flagSum (setFlag s cat) = flagSum s := by
  cases cat <;> simp only [flagOf] at h <;> simp [flagSum, setFlag, h]

theorem flagSum_setFlag_of_zero (s : ConditionSummary) (cat : CondCategory)
    (h : flagOf s cat = 0) : flagSum (setFlag s cat) = flagSum s + 1 := by
  cases cat <;> simp only [flagOf] at h <;> simp [flagSum, setFlag, h] <;> omega

theorem flagOf_other_update (s : ConditionSummary) (x : List String)
    (cat : CondCategory) :
    flagOf { s with other_conditions := x } cat = flagOf s cat := by
  cases cat <;> rfl

theorem flagSum_other_update (s : ConditionSummary) (x : List String) :
    flagSum { s with other_conditions := x } = flagSum s := rfl

theorem flagOf_total_update (s : ConditionSummary) (n : ℕ) (cat : CondCategory) :
    flagOf { s with total_conditions := n } cat = flagOf s cat := by
  cases cat <;> rfl

theorem flagSum_total_update (s : ConditionSummary) (n : ℕ) :
    flagSum { s with total_conditions := n } = flagSum s := rfl

/-- Branch equation of the loop body for an unmatched condition string. -/
theorem extract_step_none (st : ConditionSummary × List String) (c : String)
    (hm : matched_category (lowerString (trimString c)) = none) :
    extract_step st c =
      ({ st.1 with other_conditions :=
          st.1.other_conditions ++ [lowerString (trimString c)] },
       st.2 ++ ["other"]) := by
  simp [extract_step, hm]

/-- Branch equation of the loop body for a matched condition string. -/
theorem extract_step_some (st : ConditionSummary × List String) (c : String)
    (cat : CondCategory)
    (hm : matched_category (lowerString (trimString c)) = some cat) :
    extract_step st c =
      (setFlag st.1 cat,
       if cat.name ∈ st.2 then st.2 else st.2 ++ [cat.name]) := by
  simp [extract_step, hm]

/-- Loop invariant: each flag is set exactly when its category's name is in
`detected_conditions`, and the length of `detected_conditions` is the flag
sum plus the number of entries in the `other` bucket. -/
def ExtractInv (st : ConditionSummary × List String) : Prop :=
  (∀ cat : CondCategory, flagOf st.1 cat = if cat.name ∈ st.2 then 1 else 0) ∧
  st.2.length = flagSum st.1 + st.1.other_conditions.length

theorem extract_step_inv (st : ConditionSummary × List String) (c : String)
    (h : ExtractInv st) : ExtractInv (extract_step st c) := by
  obtain ⟨h1, h2⟩ := h
  rcases hm : matched_category (lowerString (trimString c)) with - | cat0
  · rw [extract_step_none st c hm]
    refine ⟨?_, ?_⟩
    · intro cat
      dsimp only
      rw [flagOf_other_update]
      have hne : cat.name ∈ st.2 ++ ["other"] ↔ cat.name ∈ st.2 := by
        simp [condName_ne_other cat]
      rw [h1 cat]
      by_cases hmem : cat.name ∈ st.2
      · rw [if_pos hmem, if_pos (hne.mpr hmem)]
      · rw [if_neg hmem, if_neg (fun hc => hmem (hne.mp hc))]
    · dsimp only
      rw [flagSum_other_update]
      simp only [List.length_append, List.length_singleton]
      omega
  · rw [extract_step_some st c cat0 hm]
    by_cases hmem : cat0.name ∈ st.2
    · have hflag : flagOf st.1 cat0 = 1 := by rw [h1 cat0, if_pos hmem]
      rw [if_pos hmem]
      refine ⟨?_, ?_⟩
      · intro cat
        dsimp only
        rcases eq_or_ne cat cat0 with rfl | hne
        · rw [flagOf_setFlag_self, if_pos hmem]
        · rw [flagOf_setFlag_ne _ hne, h1 cat]
      · dsimp only
        rw [flagSum_setFlag_of_one _ _ hflag, other_setFlag]
        exact h2
    · have hflag : flagOf st.1 cat0 = 0 := by rw [h1 cat0, if_neg hmem]
      rw [if_neg hmem]
      refine ⟨?_, ?_⟩
      · intro cat
        dsimp only
        rcases eq_or_ne cat cat0 with rfl | hne
        · rw [flagOf_setFlag_self,
            if_pos (by simp : cat.name ∈ st.2 ++ [cat.name])]
        · have hname : cat.name ≠ cat0.name := fun hc => hne (condName_inj _ _ hc)
          have hmm : cat.name ∈ st.2 ++ [cat0.name] ↔ cat.name ∈ st.2 := by
            simp [hname]
          rw [flagOf_setFlag_ne _ hne, h1 cat]
          by_cases hc : cat.name ∈ st.2
          · rw [if_pos hc, if_pos (hmm.mpr hc)]
          · rw [if_neg hc, if_neg (fun hx => hc (hmm.mp hx))]
      · dsimp only
        rw [flagSum_setFlag_of_zero _ _ hflag, other_setFlag]
        simp only [List.length_append, List.length_singleton]
        omega

theorem extract_foldl_inv (cs : List String)
    (st : ConditionSummary × List String) (h : ExtractInv st) :
    ExtractInv (cs.foldl extract_step st) := by
  induction cs generalizing st with
  | nil => exact h
  | cons c rest ih => exact ih _ (extract_step_inv st c h)

/-- C3 as amended: for every raw condition list, `total_conditions` equals
the number of distinct matched categories (the flag sum — every flag is at
most 1) plus the number of entries placed in the `other` bucket counted
with multiplicity, not deduplicated (and not the raw free-text count
either, since repeated matches of one category count once). -/
theorem spec_C3 (raw : List String) :
    (extract_conditions raw).total_conditions =
      flagSum (extract_conditions raw) +
        (extract_conditions raw).other_conditions.length ∧
    ∀ cat : CondCategory, flagOf (extract_conditions raw) cat ≤ 1 := by
  have hinit : ExtractInv (emptyConditionSummary, []) := by
    refine ⟨?_, rfl⟩
    intro cat
    cases cat <;> rfl
  have hres := extract_foldl_inv
    ((raw.filter (fun c => !(c == "") && !(trimString c == ""))).map lowerString)
    (emptyConditionSummary, []) hinit
  have heq : extract_conditions raw =
      { ((raw.filter (fun c => !(c == "") && !(trimString c == ""))).map
          lowerString |>.foldl extract_step (emptyConditionSummary, [])).1
        with total_conditions :=
          ((raw.filter (fun c => !(c == "") && !(trimString c == ""))).map
            lowerString |>.foldl extract_step (emptyConditionSummary, [])).2.length } :=
    rfl
  constructor
  · rw [heq]
    show (_ : List String).length = flagSum _ + (List.length _)
    rw [flagSum_total_update]
    exact hres.2
  · intro cat
    rw [heq, flagOf_total_update, hres.1 cat]
    split <;> omega

/-- Counterexample to C3: the condition list `["xyz", "xyz"]` produces
`total_conditions = 2` (one `"other"` per unmatched string, with
multiplicity), while distinct matched categories (0) plus distinct other
entries (1, after deduplication) is 1. -/
theorem spec_C3_counterexample :
    (extract_conditions ["xyz", "xyz"]).total_conditions ≠
      flagSum (extract_conditions ["xyz", "xyz"]) +
        ((extract_conditions ["xyz", "xyz"]).other_conditions.dedup).length := by
  decide

/-! ### Cohort summary statistics

`BatchPredictor.save_dashboard_data` (src/model/batch_predictions.py lines
465-473; textually identical in src/model/simple_batch.py lines 134-142):
for each of the four levels, `count` is the number of records at that level
and `percentage = round(count / total_patients * 100, 1)`.  Python's
`round` is round-half-to-even, modelled exactly on ℚ. -/

/-- Round to the nearest integer, ties to the even integer
(Python `round(x)` semantics, exact on ℚ). -/
def round_half_even (q : ℚ) : ℤ :=
  if q - (q.floor : ℚ) < 1/2 then q.floor
  else if 1/2 < q - (q.floor : ℚ) then q.floor + 1
  else if q.floor % 2 = 0 then q.floor else q.floor + 1

/-- Python `round(x, 1)`. -/
def round_dec1 (x : ℚ) : ℚ := (round_half_even (10 * x) : ℚ) / 10

theorem rat_floor_eq_intFloor (q : ℚ) : (q.floor : ℚ) = ((⌊q⌋ : ℤ) : ℚ) := rfl

theorem round_half_even_err (q : ℚ) :
    |((round_half_even q : ℤ) : ℚ) - q| ≤ 1/2 := by
  have h0 : ((⌊q⌋ : ℤ) : ℚ) ≤ q := Int.floor_le q
  have h1 : q < ((⌊q⌋ : ℤ) : ℚ) + 1 := Int.lt_floor_add_one q
  unfold round_half_even
  have hfq : q.floor = ⌊q⌋ := rfl
  rw [hfq]
  split_ifs with ha hb hc
  · rw [abs_le]
    constructor <;> push_cast <;> linarith
  · rw [abs_le]
    constructor <;> push_cast <;> linarith
  · have hq : q - ((⌊q⌋ : ℤ) : ℚ) = 1/2 := le_antisymm (not_lt.mp hb) (not_lt.mp ha)
    rw [abs_le]
    constructor <;> push_cast <;> linarith
  · have hq : q - ((⌊q⌋ : ℤ) : ℚ) = 1/2 := le_antisymm (not_lt.mp hb) (not_lt.mp ha)
    rw [abs_le]
    constructor <;> push_cast <;> linarith

theorem round_dec1_err (x : ℚ) : |round_dec1 x - x| ≤ 1/20 := by
  have h := round_half_even_err (10 * x)
  have hx : round_dec1 x - x = ((round_half_even (10 * x) : ℚ) - 10 * x) / 10 := by
    rw [round_dec1]
    ring
  rw [hx, abs_div, abs_of_pos (by norm_num : (0 : ℚ) < 10)]
  linarith

/-- Embeds `count = sum(1 for p in patient_records if p['level'] == level)`. -/
def level_count (records : List Patient) (level : String) : ℕ :=
  (records.filter (fun p => p.level == level)).length

/-- Embeds `percentage = round(count / total_patients * 100, 1)`. -/
def level_percentage (records : List Patient) (level : String) : ℚ :=
  round_dec1 ((level_count records level : ℚ) / (records.length : ℚ) * 100)

/-- The four level counts partition any record list on which every level is
one of the four category names. -/
theorem level_counts_sum (records : List Patient)
    (h : ∀ p ∈ records, p.level = "Low Risk" ∨ p.level = "Medium Risk" ∨
      p.level = "High Risk" ∨ p.level = "Critical Risk") :
    level_count records "Low Risk" + level_count records "Medium Risk" +
      level_count records "High Risk" + level_count records "Critical Risk" =
      records.length := by
  induction records with
  | nil => rfl
  | cons p rest ih =>
    have hp := h p (List.mem_cons_self p rest)
    have ihr := ih fun x hx => h x (List.mem_cons_of_mem p hx)
    simp only [level_count] at ihr ⊢
    simp only [List.filter_cons]
    rcases hp with hp | hp | hp | hp <;> simp [hp] <;> omega

/-- Four values summing to 100, each rounded to one decimal, sum to 100
within 4 × 0.05 = 0.2. -/
theorem sum_round_err (t1 t2 t3 t4 : ℚ) (hsum : t1 + t2 + t3 + t4 = 100) :
    |round_dec1 t1 + round_dec1 t2 + round_dec1 t3 + round_dec1 t4 - 100| ≤
      1/5 := by
  have e1 := round_dec1_err t1
  have e2 := round_dec1_err t2
  have e3 := round_dec1_err t3
  have e4 := round_dec1_err t4
  rw [abs_le] at *
  constructor <;> [linarith [e1.1, e2.1, e3.1, e4.1]; linarith [e1.2, e2.2, e3.2, e4.2]]

/-- C8 as amended: for every non-empty batch whose records carry one of the
four category levels, the per-category counts sum to the total record
count, and the four percentages (each `round(count/total*100, 1)`) sum to
100 within a tolerance of 0.2 — four roundings of up to 0.05 each; the
claimed tolerance 0.1 is refuted by the counterexample. -/
theorem spec_C8 (records : List Patient) (hne : records ≠ [])
    (h : ∀ p ∈ records, p.level = "Low Risk" ∨ p.level = "Medium Risk" ∨
      p.level = "High Risk" ∨ p.level = "Critical Risk") :
    level_count records "Low Risk" + level_count records "Medium Risk" +
      level_count records "High Risk" + level_count records "Critical Risk" =
      records.length ∧
    |level_percentage records "Low Risk" + level_percentage records "Medium Risk" +
      level_percentage records "High Risk" + level_percentage records "Critical Risk" -
      100| ≤ 1/5 := by
  have hc := level_counts_sum records h
  refine ⟨hc, ?_⟩
  have hn0 : (records.length : ℚ) ≠ 0 :=
    Nat.cast_ne_zero.mpr fun h0 => hne (List.length_eq_zero.mp h0)
  have hcast : ((level_count records "Low Risk" : ℚ) +
      (level_count records "Medium Risk" : ℚ) +
      (level_count records "High Risk" : ℚ) +
      (level_count records "Critical Risk" : ℚ)) = (records.length : ℚ) := by
    exact_mod_cast congrArg (Nat.cast : ℕ → ℚ) hc
  have hsum : (level_count records "Low Risk" : ℚ) / (records.length : ℚ) * 100 +
      (level_count records "Medium Risk" : ℚ) / (records.length : ℚ) * 100 +
      (level_count records "High Risk" : ℚ) / (records.length : ℚ) * 100 +
      (level_count records "Critical Risk" : ℚ) / (records.length : ℚ) * 100 = 100 := by
    field_simp
    linarith
  exact sum_round_err _ _ _ _ hsum

/-- A sixteen-record batch: one Low, one Medium, one High, thirteen
Critical.  Each of the four true percentages ends in .25 or .75 of a tenth,
so each rounds by a full half-tenth. -/
def demoSummaryRecords : List Patient :=
  [⟨"s1", "Patient", 70, "male", 0, 0, "Low Risk", "green", 1⟩,
   ⟨"s2", "Patient", 70, "male", 0, 0, "Medium Risk", "yellow", 2⟩,
   ⟨"s3", "Patient", 70, "male", 0, 0, "High Risk", "orange", 3⟩] ++
  List.replicate 13 ⟨"s4", "Patient", 70, "male", 0, 0, "Critical Risk", "red", 4⟩

unseal Rat.add Rat.mul Rat.inv Rat.sub in
/-- Counterexample to C8 as claimed: on the sixteen-record batch the four
rounded percentages are 6.2, 6.2, 6.2 and 81.2, summing to 99.8 — off by
0.2, which exceeds the claimed tolerance 0.1. -/
theorem spec_C8_counterexample :
    ¬ (|level_percentage demoSummaryRecords "Low Risk" +
        level_percentage demoSummaryRecords "Medium Risk" +
        level_percentage demoSummaryRecords "High Risk" +
        level_percentage demoSummaryRecords "Critical Risk" - 100| ≤ 1/10) := by
  decide

/-- A one-record batch at level Low. -/
def lowOnlyRecords : List Patient :=
  [⟨"w1", "Patient", 70, "male", 0, 0, "Low Risk", "green", 1⟩]

/-- Witness for C8 (amended) on the one-record batch. -/
theorem spec_C8_witness :
    level_count lowOnlyRecords "Low Risk" +
      level_count lowOnlyRecords "Medium Risk" +
      level_count lowOnlyRecords "High Risk" +
      level_count lowOnlyRecords "Critical Risk" = lowOnlyRecords.length ∧
    |level_percentage lowOnlyRecords "Low Risk" +
      level_percentage lowOnlyRecords "Medium Risk" +
      level_percentage lowOnlyRecords "High Risk" +
      level_percentage lowOnlyRecords "Critical Risk" - 100| ≤ 1/5 :=
  spec_C8 lowOnlyRecords (by decide) (by decide)
